import Mathlib

/-!
Verification development for the drug-likeness tool
(`src/deepseek_python_20250612_61832c.py` and `src/app.py`).

The two core functions, `detect_smiles_column` and `analyze_lipinski`, are
embedded shallowly.  A table is an ordered list of rows over an ordered list
of column names; a row maps column names to cell values.  The cheminformatics
engine (SMILES parsing and the four descriptors) is an injected capability
`StructureParser`, as the spec prescribes: the core only consumes its
results.  Machine floats of the source are modelled as rationals; the claims
only compare them against the integer thresholds 500, 5 and 10.
-/

namespace DrugLike

/-- A cell of the tabular input/output: a string, a number, a boolean, or
absent (pandas `None`/`NaN`). -/
inductive CellValue where
  | str : String → CellValue
  | num : ℚ → CellValue
  | boolv : Bool → CellValue
  | absent : CellValue
deriving DecidableEq

/-- A row maps a column name to the value of that cell. -/
def Row : Type := String → CellValue

/-- A tabular dataset: ordered column names and ordered rows
(pandas `DataFrame` with the default positional index). -/
structure CompoundTable where
  cols : List String
  rows : List Row

/-- Python `str.lower()` on a list of characters (ASCII, as the inputs are
column names and SMILES). -/
def lowerChars (l : List Char) : List Char := l.map Char.toLower

/-- Python `str.strip()`: drop whitespace from both ends. -/
def stripChars (l : List Char) : List Char :=
  ((l.dropWhile Char.isWhitespace).reverse.dropWhile Char.isWhitespace).reverse

/-- Python `s.strip()` as a `String` operation. -/
def pyStrip (s : String) : String := String.mk (stripChars s.toList)

/-- Python `s.lower()` as a `String` operation. -/
def pyLower (s : String) : String := String.mk (lowerChars s.toList)

/-- Python `pat in hay` (substring containment): some suffix of `hay`
starts with `pat`. -/
def containsSub (hay pat : String) : Bool :=
  (List.range (hay.toList.length + 1)).any fun i =>
    pat.toList.isPrefixOf (hay.toList.drop i)

/-- Line 21: `possible_names = ['smiles', 'smi', 'smile', 'structure']`. -/
def possible_names : List String := ["smiles", "smi", "smile", "structure"]

/-- Line 25: `re.sub(r'[^a-zA-Z0-9]', '', col).lower()` — strip all
non-alphanumeric characters, then lowercase. -/
def cleanCol (c : String) : String :=
  String.mk (lowerChars (c.toList.filter Char.isAlphanum))

/-- Line 26: the phase-1 test `col_clean in possible_names`. -/
def exactMatch (c : String) : Bool := possible_names.contains (cleanCol c)

/-- Line 32: the phase-2 test `any(name in col_lower for name in possible_names)`
on `col_lower = col.lower()`. -/
def substrMatch (c : String) : Bool :=
  possible_names.any fun n => containsSub (pyLower c) n

/-- Line 35: the message of the `ValueError` raised when no column matches. -/
def noColumnMsg : String :=
  "No valid SMILES column found. Please ensure your CSV contains a column with SMILES strings."

/-- Lines 23-35, `detect_smiles_column`: return the first column whose
cleaned name is exactly a canonical name; otherwise the first column whose
lowercased name contains a canonical name; otherwise raise `ValueError`. -/
def detect_smiles_column (cols : List String) : Except String String :=
  match cols.find? exactMatch with
  | some c => Except.ok c
  | none =>
    match cols.find? substrMatch with
    | some c => Except.ok c
    | none => Except.error noColumnMsg

/-- The source function takes the DataFrame and reads only `df.columns`
(lines 23 and 30): detection over a table goes through its column names. -/
def detectColumn (t : CompoundTable) : Except String String :=
  detect_smiles_column t.cols

/-- The injected cheminformatics capability: `Chem.MolFromSmiles` (line 66)
returning `none` on unparseable input, and the four descriptor routines of
lines 74-77 (`Descriptors.MolWt`, `Descriptors.MolLogP`,
`Lipinski.NumHDonors`, `Lipinski.NumHAcceptors`). -/
structure StructureParser (S : Type) where
  parse : String → Option S
  molWt : S → ℚ
  logP : S → ℚ
  numHDonors : S → ℤ
  numHAcceptors : S → ℤ

/-- Write one cell of a row (`result_df.at[idx, c] = v`, restricted to the
row at `idx`). -/
def setCell (r : Row) (c : String) (v : CellValue) : Row :=
  fun c2 => if c2 = c then v else r c2

/-- Lines 52-58: the seven computed columns in the order the source
creates them (`SMILES_Valid` is assigned last, line 58). -/
def newColNames : List String :=
  ["MolWt", "LogP", "NumHDonors", "NumHAcceptors",
   "LipinskiViolations", "LipinskiResult", "SMILES_Valid"]

/-- Lines 52-58: the initial value every row receives for the seven computed
columns — descriptors `None`, violations `0`, result `"Invalid SMILES"`,
valid `False`.  A row the loop skips (lines 63-68) keeps these values. -/
def initRow (r : Row) : Row :=
  setCell (setCell (setCell (setCell (setCell (setCell (setCell r
    "MolWt" CellValue.absent)
    "LogP" CellValue.absent)
    "NumHDonors" CellValue.absent)
    "NumHAcceptors" CellValue.absent)
    "LipinskiViolations" (CellValue.num 0))
    "LipinskiResult" (CellValue.str "Invalid SMILES"))
    "SMILES_Valid" (CellValue.boolv false)

/-- Lines 80-88: the violation count, one increment per threshold test. -/
def countViolations (mw logp : ℚ) (hd ha : ℤ) : ℕ :=
  (if mw > 500 then 1 else 0) + (if logp > 5 then 1 else 0)
    + (if hd > 5 then 1 else 0) + (if ha > 10 then 1 else 0)

/-- Lines 71-96: the writes performed for a row whose SMILES parsed, in
source order: `SMILES_Valid = True`, then the four descriptors, the
violation count, and `"Pass" if violations == 0 else "Fail"`. -/
def scoredRow (r : Row) (mw logp : ℚ) (hd ha : ℤ) : Row :=
  setCell (setCell (setCell (setCell (setCell (setCell (setCell (initRow r)
    "SMILES_Valid" (CellValue.boolv true))
    "MolWt" (CellValue.num mw))
    "LogP" (CellValue.num logp))
    "NumHDonors" (CellValue.num hd))
    "NumHAcceptors" (CellValue.num ha))
    "LipinskiViolations" (CellValue.num (countViolations mw logp hd ha)))
    "LipinskiResult"
    (CellValue.str (if countViolations mw logp hd ha = 0 then "Pass" else "Fail"))

/-- Line 63: the guard `not isinstance(smiles, str) or not smiles.strip()` —
true when the cell is not a string or is blank after stripping. -/
def blankCell (v : CellValue) : Bool :=
  match v with
  | CellValue.str s => pyStrip s == ""
  | _ => true

/-- Lines 60-96, the per-row body of the loop: skip (leaving the initial
values) when the guard of line 63 fires or `Chem.MolFromSmiles` returns
`None` (line 67); otherwise score the row. -/
def analyzeRow {S : Type} (P : StructureParser S) (smilesCol : String) (r : Row) : Row :=
  match r smilesCol with
  | CellValue.str s =>
    if pyStrip s = "" then initRow r
    else
      match P.parse s with
      | none => initRow r
      | some mol =>
        scoredRow r (P.molWt mol) (P.logP mol) (P.numHDonors mol) (P.numHAcceptors mol)
  | _ => initRow r

/-- `df[c] = v` on the column axis: pandas appends the column name only when
it is not already present (otherwise it overwrites in place). -/
def addCol (cols : List String) (c : String) : List String :=
  if c ∈ cols then cols else cols ++ [c]

/-- Lines 37-98, `analyze_lipinski`: copy the input (line 49), initialize the
seven computed columns (lines 52-58), then process every row in order
(lines 60-96).  The per-index write-back of the source loop is embedded as a
positional map over the rows. -/
def analyze_lipinski {S : Type} (P : StructureParser S) (t : CompoundTable)
    (smilesCol : String) : CompoundTable :=
  { cols := newColNames.foldl addCol t.cols,
    rows := t.rows.map (analyzeRow P smilesCol) }

/-- `src/app.py` line 46: `total_compounds = len(result_df)`. -/
def totalCount (t : CompoundTable) : ℕ := t.rows.length

/-- `src/app.py` line 45: `valid_smiles = result_df['SMILES_Valid'].sum()`. -/
def validCount (t : CompoundTable) : ℕ :=
  t.rows.countP fun r => decide (r "SMILES_Valid" = CellValue.boolv true)

/-- Rows that are not valid (the complement of `validCount`). -/
def invalidCount (t : CompoundTable) : ℕ :=
  t.rows.countP fun r => decide (¬ r "SMILES_Valid" = CellValue.boolv true)

/-- `src/app.py` line 47: `(result_df['LipinskiResult'] == 'Pass').sum()`. -/
def passCount (t : CompoundTable) : ℕ :=
  t.rows.countP fun r => decide (r "LipinskiResult" = CellValue.str "Pass")

/-- `src/app.py` line 48: `(result_df['LipinskiResult'] == 'Fail').sum()`. -/
def failCount (t : CompoundTable) : ℕ :=
  t.rows.countP fun r => decide (r "LipinskiResult" = CellValue.str "Fail")

/-- The condition under which the loop leaves a row at its initial values:
the guard of line 63 fires, or the parser rejects the string (line 67). -/
def rowRejected {S : Type} (P : StructureParser S) (smilesCol : String) (r : Row) : Prop :=
  blankCell (r smilesCol) = true ∨
    ∃ s, r smilesCol = CellValue.str s ∧ pyStrip s ≠ "" ∧ P.parse s = none

/-! ### Concrete material used by witnesses and counterexamples -/

/-- A stub cheminformatics capability accepting only the SMILES `"CCO"`
(ethanol), with descriptor values that pass every threshold. -/
def unitParser : StructureParser Unit :=
  { parse := fun s => if s = "CCO" then some () else none,
    molWt := fun _ => 46, logP := fun _ => -1,
    numHDonors := fun _ => 1, numHAcceptors := fun _ => 1 }

/-- A row holding the SMILES `"CCO"` in column `"SMILES"`. -/
def ccoRow : Row := fun c => if c = "SMILES" then CellValue.str "CCO" else CellValue.absent

/-- A one-row, one-column table around `ccoRow`. -/
def tinyTable : CompoundTable := { cols := ["SMILES"], rows := [ccoRow] }

/-- A row whose SMILES cell is whitespace only (blank after stripping). -/
def blankRow : Row := fun c => if c = "SMILES" then CellValue.str " " else CellValue.absent

/-- A row with a valid SMILES and, in a column named `"MolWt"`, an original
cell value that the analysis overwrites. -/
def clashRow : Row :=
  fun c => if c = "SMILES" then CellValue.str "CCO"
    else if c = "MolWt" then CellValue.str "keep" else CellValue.absent

/-- A table whose original columns include the computed name `"MolWt"`. -/
def clashTable : CompoundTable := { cols := ["SMILES", "MolWt"], rows := [clashRow] }

/-- An empty table sharing `tinyTable`'s column names. -/
def emptyTable : CompoundTable := { cols := ["SMILES"], rows := [] }

/-- A stub capability that accepts every SMILES string, with descriptor
values violating all four thresholds. -/
def greedyParser : StructureParser Unit :=
  { parse := fun _ => some (), molWt := fun _ => 1000, logP := fun _ => 10,
    numHDonors := fun _ => 10, numHAcceptors := fun _ => 20 }


end DrugLike

namespace DrugLike

/-! ### Basic cell and row lemmas -/

theorem setCell_same (r : Row) (c : String) (v : CellValue) : setCell r c v c = v := by
  simp [setCell]

theorem setCell_other (r : Row) {c c2 : String} (v : CellValue) (h : c2 ≠ c) :
    setCell r c v c2 = r c2 := by
  simp [setCell, h]

theorem initRow_valid (r : Row) : initRow r "SMILES_Valid" = CellValue.boolv false := rfl

theorem initRow_molWt (r : Row) : initRow r "MolWt" = CellValue.absent := rfl

theorem initRow_logP (r : Row) : initRow r "LogP" = CellValue.absent := rfl

theorem initRow_donors (r : Row) : initRow r "NumHDonors" = CellValue.absent := rfl

theorem initRow_acceptors (r : Row) : initRow r "NumHAcceptors" = CellValue.absent := rfl

theorem initRow_violations (r : Row) : initRow r "LipinskiViolations" = CellValue.num 0 := rfl

theorem initRow_result (r : Row) : initRow r "LipinskiResult" = CellValue.str "Invalid SMILES" := rfl

theorem scoredRow_valid (r : Row) (mw logp : ℚ) (hd ha : ℤ) :
    scoredRow r mw logp hd ha "SMILES_Valid" = CellValue.boolv true := rfl

theorem scoredRow_molWt (r : Row) (mw logp : ℚ) (hd ha : ℤ) :
    scoredRow r mw logp hd ha "MolWt" = CellValue.num mw := rfl

theorem scoredRow_logP (r : Row) (mw logp : ℚ) (hd ha : ℤ) :
    scoredRow r mw logp hd ha "LogP" = CellValue.num logp := rfl

theorem scoredRow_violations (r : Row) (mw logp : ℚ) (hd ha : ℤ) :
    scoredRow r mw logp hd ha "LipinskiViolations"
      = CellValue.num (countViolations mw logp hd ha) := rfl

theorem scoredRow_result (r : Row) (mw logp : ℚ) (hd ha : ℤ) :
    scoredRow r mw logp hd ha "LipinskiResult"
      = CellValue.str (if countViolations mw logp hd ha = 0 then "Pass" else "Fail") := rfl

theorem initRow_preserve (r : Row) {c : String} (h : c ∉ newColNames) : initRow r c = r c := by
  simp only [newColNames, List.mem_cons, List.not_mem_nil, or_false, not_or] at h
  obtain ⟨h1, h2, h3, h4, h5, h6, h7⟩ := h
  simp [initRow, setCell, h1, h2, h3, h4, h5, h6, h7]

theorem scoredRow_preserve (r : Row) (mw logp : ℚ) (hd ha : ℤ) {c : String}
    (h : c ∉ newColNames) : scoredRow r mw logp hd ha c = r c := by
  have hi := initRow_preserve r h
  simp only [newColNames, List.mem_cons, List.not_mem_nil, or_false, not_or] at h
  obtain ⟨h1, h2, h3, h4, h5, h6, h7⟩ := h
  simp [scoredRow, setCell, h1, h2, h3, h4, h5, h6, h7, hi]

/-! ### Case analysis on the per-row loop body -/

theorem analyzeRow_of_blank {S : Type} (P : StructureParser S) (col : String) (r : Row)
    (h : blankCell (r col) = true) : analyzeRow P col r = initRow r := by
  unfold analyzeRow
  cases hc : r col with
  | str s =>
    rw [hc] at h
    simp only [blankCell, beq_iff_eq] at h
    simp [h]
  | num q => rfl
  | boolv b => rfl
  | absent => rfl

theorem analyzeRow_of_unparsed {S : Type} (P : StructureParser S) (col : String) (r : Row)
    (s : String) (hs : r col = CellValue.str s) (hb : pyStrip s ≠ "")
    (hp : P.parse s = none) : analyzeRow P col r = initRow r := by
  simp [analyzeRow, hs, hb, hp]

theorem analyzeRow_of_rejected {S : Type} (P : StructureParser S) (col : String) (r : Row)
    (h : rowRejected P col r) : analyzeRow P col r = initRow r := by
  rcases h with hb | ⟨s, hs, hne, hp⟩
  · exact analyzeRow_of_blank P col r hb
  · exact analyzeRow_of_unparsed P col r s hs hne hp

theorem analyzeRow_of_parsed {S : Type} (P : StructureParser S) (col : String) (r : Row)
    (s : String) (mol : S) (hs : r col = CellValue.str s) (hb : pyStrip s ≠ "")
    (hp : P.parse s = some mol) :
    analyzeRow P col r
      = scoredRow r (P.molWt mol) (P.logP mol) (P.numHDonors mol) (P.numHAcceptors mol) := by
  simp [analyzeRow, hs, hb, hp]

theorem analyzeRow_split {S : Type} (P : StructureParser S) (col : String) (r : Row) :
    analyzeRow P col r = initRow r ∨
      ∃ s mol, r col = CellValue.str s ∧ pyStrip s ≠ "" ∧ P.parse s = some mol ∧
        analyzeRow P col r
          = scoredRow r (P.molWt mol) (P.logP mol) (P.numHDonors mol) (P.numHAcceptors mol) := by
  cases hc : r col with
  | str s =>
    by_cases hb : pyStrip s = ""
    · left
      exact analyzeRow_of_blank P col r (by simp [blankCell, hc, hb])
    · cases hp : P.parse s with
      | none => left; exact analyzeRow_of_unparsed P col r s hc hb hp
      | some mol =>
        right
        exact ⟨s, mol, rfl, hb, hp, analyzeRow_of_parsed P col r s mol hc hb hp⟩
  | num q => left; exact analyzeRow_of_blank P col r (by simp [blankCell, hc])
  | boolv b => left; exact analyzeRow_of_blank P col r (by simp [blankCell, hc])
  | absent => left; exact analyzeRow_of_blank P col r (by simp [blankCell, hc])

theorem countViolations_eq_count (mw logp : ℚ) (hd ha : ℤ) :
    countViolations mw logp hd ha
      = List.count true
          [decide (mw > 500), decide (logp > 5), decide (hd > 5), decide (ha > 10)] := by
  by_cases h1 : mw > 500 <;> by_cases h2 : logp > 5 <;>
    by_cases h3 : hd > 5 <;> by_cases h4 : ha > 10 <;>
    simp [countViolations, h1, h2, h3, h4, List.count_cons]

end DrugLike

namespace DrugLike

/-! ### Counting and column-axis helpers -/

theorem countP_bool_not_add {α : Type} (q : α → Bool) (l : List α) :
    l.countP q + l.countP (fun a => !q a) = l.length := by
  induction l with
  | nil => rfl
  | cons a t ih =>
    cases h : q a <;> simp [List.countP_cons, h] <;> omega

theorem countP_decide_not_add {α : Type} (p : α → Prop) [DecidablePred p] (l : List α) :
    l.countP (fun a => decide (p a)) + l.countP (fun a => decide (¬ p a)) = l.length := by
  have he : (fun a => decide (¬ p a)) = (fun a => !(decide (p a))) := by
    funext a
    by_cases h : p a <;> simp [h]
  rw [he]
  exact countP_bool_not_add (fun a => decide (p a)) l

theorem foldl_addCol_fresh :
    ∀ (news cs : List String), (∀ c ∈ news, c ∉ cs) → news.Nodup →
      news.foldl addCol cs = cs ++ news := by
  intro news
  induction news with
  | nil => intro cs _ _; simp
  | cons a l ih =>
    intro cs h hn
    rw [List.nodup_cons] at hn
    have ha : a ∉ cs := h a (List.mem_cons_self a l)
    have hstep : addCol cs a = cs ++ [a] := if_neg ha
    have hfresh : ∀ c ∈ l, c ∉ cs ++ [a] := by
      intro c hc
      rw [List.mem_append, List.mem_singleton]
      rintro (hcs | hca)
      · exact h c (List.mem_cons_of_mem a hc) hcs
      · exact hn.1 (hca ▸ hc)
    calc (a :: l).foldl addCol cs = l.foldl addCol (cs ++ [a]) := by rw [List.foldl_cons, hstep]
      _ = (cs ++ [a]) ++ l := ih (cs ++ [a]) hfresh hn.2
      _ = cs ++ a :: l := by simp

theorem analyzeRow_preserve {S : Type} (P : StructureParser S) (col : String) (r : Row)
    {c : String} (h : c ∉ newColNames) : analyzeRow P col r c = r c := by
  rcases analyzeRow_split P col r with he | ⟨s, mol, _, _, _, he⟩
  · rw [he, initRow_preserve r h]
  · rw [he, scoredRow_preserve r _ _ _ _ h]

end DrugLike

namespace DrugLike

/-! ### The claims -/

/-- C1: for every row whose SMILES cell is a string that is non-blank after
stripping and that the parser accepts, the analysis sets
`LipinskiViolations` to the number of true tests among the four independent
threshold tests (`molWt > 500`, `logP > 5`, `hDonors > 5`, `hAcceptors > 10`),
each contributing at most 1, and sets `LipinskiResult` to `"Pass"` iff the
violation count is `0` and to `"Fail"` otherwise. -/
theorem analyzeRow_scores_parsed {S : Type} (P : StructureParser S) (col : String)
    (r : Row) (s : String) (mol : S)
    (hs : r col = CellValue.str s) (hb : pyStrip s ≠ "") (hp : P.parse s = some mol) :
    analyzeRow P col r "LipinskiViolations"
      = CellValue.num (List.count true
          [decide (P.molWt mol > 500), decide (P.logP mol > 5),
           decide (P.numHDonors mol > 5), decide (P.numHAcceptors mol > 10)]) ∧
    (analyzeRow P col r "LipinskiResult" = CellValue.str "Pass" ↔
      List.count true
          [decide (P.molWt mol > 500), decide (P.logP mol > 5),
           decide (P.numHDonors mol > 5), decide (P.numHAcceptors mol > 10)] = 0) ∧
    (analyzeRow P col r "LipinskiResult" = CellValue.str "Fail" ↔
      ¬ List.count true
          [decide (P.molWt mol > 500), decide (P.logP mol > 5),
           decide (P.numHDonors mol > 5), decide (P.numHAcceptors mol > 10)] = 0) := by
  have he := analyzeRow_of_parsed P col r s mol hs hb hp
  rw [he, scoredRow_violations, scoredRow_result, ← countViolations_eq_count]
  refine ⟨rfl, ?_, ?_⟩
  · by_cases hv :
      countViolations (P.molWt mol) (P.logP mol) (P.numHDonors mol) (P.numHAcceptors mol) = 0
    · rw [if_pos hv]
      simp [hv]
    · rw [if_neg hv]
      constructor
      · intro hcell
        exact absurd (CellValue.str.inj hcell) (by decide)
      · intro h0
        exact absurd h0 hv
  · by_cases hv :
      countViolations (P.molWt mol) (P.logP mol) (P.numHDonors mol) (P.numHAcceptors mol) = 0
    · rw [if_pos hv]
      constructor
      · intro hcell
        exact absurd (CellValue.str.inj hcell) (by decide)
      · intro h0
        exact absurd hv h0
    · rw [if_neg hv]
      simp [hv]

/-- Witness for C1: the ethanol row under the stub parser scores 0
violations and passes. -/
theorem analyzeRow_scores_parsed_witness :
    ccoRow "SMILES" = CellValue.str "CCO" ∧ pyStrip "CCO" ≠ "" ∧
      unitParser.parse "CCO" = some () ∧
      analyzeRow unitParser "SMILES" ccoRow "LipinskiViolations" = CellValue.num 0 ∧
      analyzeRow unitParser "SMILES" ccoRow "LipinskiResult" = CellValue.str "Pass" := by
  have h := analyzeRow_scores_parsed unitParser "SMILES" ccoRow "CCO" () rfl (by decide) rfl
  exact ⟨rfl, by decide, rfl, h.1.trans (by decide), h.2.1.mpr (by decide)⟩

/-- C2: a row whose SMILES cell is not a non-blank string, or whose string
the parser rejects, is marked `SMILES_Valid = false` with all four
descriptor cells absent, `LipinskiViolations = 0` and
`LipinskiResult = "Invalid SMILES"`; for a blank cell this outcome does not
consult the parser (any two parsers give the same row), and such a row
never aborts the batch (the output always has one row per input row). -/
theorem analyzeRow_invalid_outcome {S S2 : Type} (P : StructureParser S)
    (Q : StructureParser S2) (col : String) (r : Row) (h : rowRejected P col r) :
    analyzeRow P col r "SMILES_Valid" = CellValue.boolv false ∧
    analyzeRow P col r "MolWt" = CellValue.absent ∧
    analyzeRow P col r "LogP" = CellValue.absent ∧
    analyzeRow P col r "NumHDonors" = CellValue.absent ∧
    analyzeRow P col r "NumHAcceptors" = CellValue.absent ∧
    analyzeRow P col r "LipinskiViolations" = CellValue.num 0 ∧
    analyzeRow P col r "LipinskiResult" = CellValue.str "Invalid SMILES" ∧
    (blankCell (r col) = true → analyzeRow P col r = analyzeRow Q col r) ∧
    ∀ t : CompoundTable, totalCount (analyze_lipinski P t col) = totalCount t := by
  have he := analyzeRow_of_rejected P col r h
  rw [he]
  refine ⟨initRow_valid r, initRow_molWt r, initRow_logP r, initRow_donors r,
    initRow_acceptors r, initRow_violations r, initRow_result r, ?_, ?_⟩
  · intro hb
    rw [analyzeRow_of_blank Q col r hb]
  · intro t
    simp [totalCount, analyze_lipinski]

/-- Witness for C2: a whitespace-only SMILES cell is rejected without
consulting the parser, and the batch keeps its single row. -/
theorem analyzeRow_invalid_outcome_witness :
    rowRejected unitParser "SMILES" blankRow ∧
      analyzeRow unitParser "SMILES" blankRow "SMILES_Valid" = CellValue.boolv false ∧
      analyzeRow unitParser "SMILES" blankRow "LipinskiResult" = CellValue.str "Invalid SMILES" ∧
      analyzeRow unitParser "SMILES" blankRow = analyzeRow greedyParser "SMILES" blankRow ∧
      totalCount (analyze_lipinski unitParser tinyTable "SMILES") = totalCount tinyTable := by
  have h := analyzeRow_invalid_outcome unitParser greedyParser "SMILES" blankRow
    (Or.inl (by decide))
  obtain ⟨h1, _, _, _, _, _, h7, h8, h9⟩ := h
  exact ⟨Or.inl (by decide), h1, h7, h8 (by decide), h9 tinyTable⟩

end DrugLike

namespace DrugLike

/-- C3: detection returns the first column, in input order, whose name
normalized by stripping non-alphanumeric characters and lowercasing exactly
equals a canonical term; only when no column has such an exact normalized
match does it return the first column whose lowercased (unstripped) name
contains a canonical term as a substring — so any phase-1 match anywhere in
the sequence takes priority over any phase-2 match. -/
theorem detect_two_phase_first_match (cols : List String) (c : String) :
    detect_smiles_column cols = Except.ok c ↔
      (exactMatch c = true ∧
        ∃ pre post, cols = pre ++ c :: post ∧ ∀ x ∈ pre, exactMatch x = false) ∨
      ((∀ x ∈ cols, exactMatch x = false) ∧ substrMatch c = true ∧
        ∃ pre post, cols = pre ++ c :: post ∧ ∀ x ∈ pre, substrMatch x = false) := by
  unfold detect_smiles_column
  cases h1 : cols.find? exactMatch with
  | some c0 =>
    simp only [h1]
    constructor
    · intro hok
      have hc : c0 = c := Except.ok.inj hok
      subst hc
      obtain ⟨hp, pre, post, heq, hall⟩ := List.find?_eq_some.mp h1
      exact Or.inl ⟨hp, pre, post, heq, fun x hx => by simpa using hall x hx⟩
    · rintro (⟨hp, pre, post, heq, hall⟩ | ⟨hnone, _⟩)
      · have : cols.find? exactMatch = some c :=
          List.find?_eq_some.mpr ⟨hp, pre, post, heq, fun x hx => by simp [hall x hx]⟩
        rw [h1] at this
        rw [Option.some.inj this]
      · exact absurd (List.find?_some h1) (by simp [hnone c0 (List.mem_of_find?_eq_some h1)])
  | none =>
    have hno : ∀ x ∈ cols, exactMatch x = false := by
      intro x hx
      simpa using List.find?_eq_none.mp h1 x hx
    cases h2 : cols.find? substrMatch with
    | some c0 =>
      simp only [h1, h2]
      constructor
      · intro hok
        have hc : c0 = c := Except.ok.inj hok
        subst hc
        obtain ⟨hp, pre, post, heq, hall⟩ := List.find?_eq_some.mp h2
        exact Or.inr ⟨hno, hp, pre, post, heq, fun x hx => by simpa using hall x hx⟩
      · rintro (⟨hp, pre, post, heq, _⟩ | ⟨_, hp, pre, post, heq, hall⟩)
        · have hmem : c ∈ cols := by
            rw [heq]
            exact List.mem_append.mpr (Or.inr (List.mem_cons_self c post))
          exact absurd hp (by simp [hno c hmem])
        · have : cols.find? substrMatch = some c :=
            List.find?_eq_some.mpr ⟨hp, pre, post, heq, fun x hx => by simp [hall x hx]⟩
          rw [h2] at this
          rw [Option.some.inj this]
    | none =>
      have hno2 : ∀ x ∈ cols, substrMatch x = false := by
        intro x hx
        simpa using List.find?_eq_none.mp h2 x hx
      simp only [h1, h2]
      constructor
      · intro hok
        exact absurd hok (by simp)
      · rintro (⟨hp, pre, post, heq, _⟩ | ⟨_, hp, pre, post, heq, _⟩)
        · have hmem : c ∈ cols := by
            rw [heq]
            exact List.mem_append.mpr (Or.inr (List.mem_cons_self c post))
          exact absurd hp (by simp [hno c hmem])
        · have hmem : c ∈ cols := by
            rw [heq]
            exact List.mem_append.mpr (Or.inr (List.mem_cons_self c post))
          exact absurd hp (by simp [hno2 c hmem])

/-- Witness for C3: in `["can_smiles", "SMILES"]` the exact normalized
match `"SMILES"` wins over the earlier substring-only match. -/
theorem detect_two_phase_first_match_witness :
    exactMatch "SMILES" = true ∧
      ∃ pre post, ["can_smiles", "SMILES"] = pre ++ "SMILES" :: post ∧
        ∀ x ∈ pre, exactMatch x = false := by
  have h := (detect_two_phase_first_match ["can_smiles", "SMILES"] "SMILES").mp rfl
  rcases h with h | ⟨hno, _⟩
  · exact h
  · exact absurd (hno "SMILES" (by simp)) (by decide)

/-- C4: detection fails, with the human-readable `ValueError` message, iff
no column matches in either phase; whenever some column matches in some
phase, a column is returned and no error is raised. -/
theorem detect_error_iff_no_match (cols : List String) :
    (detect_smiles_column cols = Except.error noColumnMsg ↔
      ∀ x ∈ cols, exactMatch x = false ∧ substrMatch x = false) ∧
    (∀ e, detect_smiles_column cols = Except.error e → e = noColumnMsg) ∧
    noColumnMsg ≠ "" ∧
    ((∃ x ∈ cols, exactMatch x = true ∨ substrMatch x = true) →
      ∃ c, detect_smiles_column cols = Except.ok c) := by
  unfold detect_smiles_column
  cases h1 : cols.find? exactMatch with
  | some c0 =>
    simp only [h1]
    refine ⟨⟨fun h => absurd h (by simp), fun h => ?_⟩, fun e he => absurd he (by simp),
      by decide, fun _ => ⟨c0, rfl⟩⟩
    have hmem := List.mem_of_find?_eq_some h1
    have hp := List.find?_some h1
    exact absurd hp (by simp [(h c0 hmem).1])
  | none =>
    have hno : ∀ x ∈ cols, exactMatch x = false := by
      intro x hx
      simpa using List.find?_eq_none.mp h1 x hx
    cases h2 : cols.find? substrMatch with
    | some c0 =>
      simp only [h1, h2]
      refine ⟨⟨fun h => absurd h (by simp), fun h => ?_⟩, fun e he => absurd he (by simp),
        by decide, fun _ => ⟨c0, rfl⟩⟩
      have hmem := List.mem_of_find?_eq_some h2
      have hp := List.find?_some h2
      exact absurd hp (by simp [(h c0 hmem).2])
    | none =>
      have hno2 : ∀ x ∈ cols, substrMatch x = false := by
        intro x hx
        simpa using List.find?_eq_none.mp h2 x hx
      simp only [h1, h2]
      refine ⟨⟨fun _ => fun x hx => ⟨hno x hx, hno2 x hx⟩, fun _ => by trivial⟩,
        fun e he => (Except.error.inj he).symm, by decide, ?_⟩
      rintro ⟨x, hx, hm | hm⟩
      · exact absurd hm (by simp [hno x hx])
      · exact absurd hm (by simp [hno2 x hx])

/-- Witness for C4: a table with no SMILES-like column fails with the
message, and one with a matching column succeeds. -/
theorem detect_error_iff_no_match_witness :
    detect_smiles_column ["id", "name"] = Except.error noColumnMsg ∧
      ∃ c, detect_smiles_column ["id", "isosmiles"] = Except.ok c := by
  constructor
  · exact (detect_error_iff_no_match ["id", "name"]).1.mpr (by decide)
  · exact (detect_error_iff_no_match ["id", "isosmiles"]).2.2.2
      ⟨"isosmiles", by simp, Or.inr (by decide)⟩

end DrugLike

namespace DrugLike

theorem pass_add_fail_eq_valid {S : Type} (P : StructureParser S) (col : String)
    (rs : List Row) :
    List.countP (fun r => decide (r "LipinskiResult" = CellValue.str "Pass"))
        (rs.map (analyzeRow P col))
      + List.countP (fun r => decide (r "LipinskiResult" = CellValue.str "Fail"))
        (rs.map (analyzeRow P col))
      = List.countP (fun r => decide (r "SMILES_Valid" = CellValue.boolv true))
        (rs.map (analyzeRow P col)) := by
  induction rs with
  | nil => rfl
  | cons r t ih =>
    simp only [List.map_cons, List.countP_cons]
    rcases analyzeRow_split P col r with he | ⟨s, mol, _, _, _, he⟩
    · rw [he, initRow_result, initRow_valid]
      have e1 : decide (CellValue.str "Invalid SMILES" = CellValue.str "Pass") = false := by
        decide
      have e2 : decide (CellValue.str "Invalid SMILES" = CellValue.str "Fail") = false := by
        decide
      have e3 : decide (CellValue.boolv false = CellValue.boolv true) = false := by decide
      rw [e1, e2, e3]
      simp only [Bool.false_eq_true, reduceIte]
      simpa using ih
    · rw [he, scoredRow_result, scoredRow_valid]
      have e3 : decide (CellValue.boolv true = CellValue.boolv true) = true := by decide
      rw [e3]
      by_cases hv : countViolations (P.molWt mol) (P.logP mol) (P.numHDonors mol)
          (P.numHAcceptors mol) = 0
      · rw [if_pos hv]
        have e1 : decide (CellValue.str "Pass" = CellValue.str "Pass") = true := by decide
        have e2 : decide (CellValue.str "Pass" = CellValue.str "Fail") = false := by decide
        rw [e1, e2]
        simp only [Bool.false_eq_true, reduceIte, Nat.add_zero]
        rw [Nat.add_right_comm, ih]
      · rw [if_neg hv]
        have e1 : decide (CellValue.str "Fail" = CellValue.str "Pass") = false := by decide
        have e2 : decide (CellValue.str "Fail" = CellValue.str "Fail") = true := by decide
        rw [e1, e2]
        simp only [Bool.false_eq_true, reduceIte, Nat.add_zero]
        rw [← Nat.add_assoc, ih]

/-- C5: in every report produced by the analysis, `valid + invalid = total`,
the row total is the input row total, and `pass + fail = valid` — invalid
rows count toward neither pass nor fail. -/
theorem analyze_aggregate_counts {S : Type} (P : StructureParser S) (t : CompoundTable)
    (col : String) :
    validCount (analyze_lipinski P t col) + invalidCount (analyze_lipinski P t col)
        = totalCount (analyze_lipinski P t col) ∧
    totalCount (analyze_lipinski P t col) = totalCount t ∧
    passCount (analyze_lipinski P t col) + failCount (analyze_lipinski P t col)
        = validCount (analyze_lipinski P t col) := by
  refine ⟨?_, ?_, ?_⟩
  · exact countP_decide_not_add (fun r => r "SMILES_Valid" = CellValue.boolv true)
      (analyze_lipinski P t col).rows
  · simp [totalCount, analyze_lipinski]
  · exact pass_add_fail_eq_valid P col t.rows

end DrugLike

namespace DrugLike

/-- C6 counterexample: the output of the analysis does not place
`SMILES_Valid` first among the computed columns — the source assigns it
last (line 58), after `LipinskiResult`. -/
theorem analyze_column_order_refuted :
    (analyze_lipinski unitParser tinyTable "SMILES").cols ≠
      ["SMILES", "SMILES_Valid", "MolWt", "LogP", "NumHDonors", "NumHAcceptors",
       "LipinskiViolations", "LipinskiResult"] := by
  decide

/-- C6 (amended): when none of the seven computed names occurs among the
original columns, the output table has the original columns first, followed
by the seven computed columns in creation order `MolWt`, `LogP`,
`NumHDonors`, `NumHAcceptors`, `LipinskiViolations`, `LipinskiResult`,
`SMILES_Valid` — with `SMILES_Valid` last, not first. -/
theorem analyze_column_order {S : Type} (P : StructureParser S) (t : CompoundTable)
    (col : String) (h : ∀ c ∈ newColNames, c ∉ t.cols) :
    (analyze_lipinski P t col).cols
      = t.cols ++ ["MolWt", "LogP", "NumHDonors", "NumHAcceptors",
          "LipinskiViolations", "LipinskiResult", "SMILES_Valid"] := by
  have hn : newColNames.Nodup := by decide
  have he := foldl_addCol_fresh newColNames t.cols h hn
  simp only [analyze_lipinski]
  exact he

/-- Witness for C6 (amended) on the one-column table. -/
theorem analyze_column_order_witness :
    (analyze_lipinski unitParser tinyTable "SMILES").cols
      = tinyTable.cols ++ ["MolWt", "LogP", "NumHDonors", "NumHAcceptors",
          "LipinskiViolations", "LipinskiResult", "SMILES_Valid"] :=
  analyze_column_order unitParser tinyTable "SMILES" (by decide)

/-- C7 counterexample: an original column named like a computed column is
overwritten, not preserved — here the original `"MolWt"` cell `"keep"`
becomes the computed molecular weight. -/
theorem analyze_preserves_cells_refuted :
    (analyze_lipinski unitParser clashTable "SMILES").rows.map (fun r => r "MolWt")
      ≠ clashTable.rows.map (fun r => r "MolWt") := by
  decide

/-- C7 (amended): the analysis never mutates its input (it builds a fresh
table), and every original cell in a column whose name is not one of the
seven computed column names is returned unchanged; cells in an original
column that shares a computed column's name are overwritten. -/
theorem analyze_preserves_noncomputed_cells {S : Type} (P : StructureParser S)
    (t : CompoundTable) (col c0 : String) (h : c0 ∉ newColNames) :
    (analyze_lipinski P t col).rows.map (fun r => r c0)
      = t.rows.map (fun r => r c0) := by
  simp only [analyze_lipinski, List.map_map]
  exact List.map_congr_left fun r _ => analyzeRow_preserve P col r h

/-- Witness for C7 (amended): the SMILES column itself is preserved. -/
theorem analyze_preserves_noncomputed_cells_witness :
    (analyze_lipinski unitParser tinyTable "SMILES").rows.map (fun r => r "SMILES")
      = tinyTable.rows.map (fun r => r "SMILES") :=
  analyze_preserves_noncomputed_cells unitParser tinyTable "SMILES" "SMILES" (by decide)

/-- C8: the analysis produces exactly one output row per input row, in the
same order — the output row list is the pointwise image of the input row
list, so lengths agree and the row at each position comes from the input
row at the same position. -/
theorem analyze_row_order_preserved {S : Type} (P : StructureParser S)
    (t : CompoundTable) (col : String) :
    (analyze_lipinski P t col).rows.length = t.rows.length ∧
    (analyze_lipinski P t col).rows = t.rows.map (analyzeRow P col) ∧
    ∀ i : ℕ, (analyze_lipinski P t col).rows[i]?
      = (t.rows[i]?).map (analyzeRow P col) := by
  refine ⟨by simp [analyze_lipinski], rfl, ?_⟩
  intro i
  simp [analyze_lipinski, List.getElem?_map]

end DrugLike

namespace DrugLike

theorem analyzeRow_parser_congr {S : Type} (P Q : StructureParser S) (col : String)
    (r : Row) (hp : ∀ s, P.parse s = Q.parse s)
    (h1 : ∀ m, P.molWt m = Q.molWt m) (h2 : ∀ m, P.logP m = Q.logP m)
    (h3 : ∀ m, P.numHDonors m = Q.numHDonors m)
    (h4 : ∀ m, P.numHAcceptors m = Q.numHAcceptors m) :
    analyzeRow P col r = analyzeRow Q col r := by
  cases hc : r col with
  | str s =>
    by_cases hb : pyStrip s = ""
    · rw [analyzeRow_of_blank P col r (by simp [blankCell, hc, hb]),
        analyzeRow_of_blank Q col r (by simp [blankCell, hc, hb])]
    · cases hq : Q.parse s with
      | none =>
        rw [analyzeRow_of_unparsed P col r s hc hb ((hp s).trans hq),
          analyzeRow_of_unparsed Q col r s hc hb hq]
      | some mol =>
        rw [analyzeRow_of_parsed P col r s mol hc hb ((hp s).trans hq),
          analyzeRow_of_parsed Q col r s mol hc hb hq, h1 mol, h2 mol, h3 mol, h4 mol]
  | num q =>
    rw [analyzeRow_of_blank P col r (by simp [blankCell, hc]),
      analyzeRow_of_blank Q col r (by simp [blankCell, hc])]
  | boolv b =>
    rw [analyzeRow_of_blank P col r (by simp [blankCell, hc]),
      analyzeRow_of_blank Q col r (by simp [blankCell, hc])]
  | absent =>
    rw [analyzeRow_of_blank P col r (by simp [blankCell, hc]),
      analyzeRow_of_blank Q col r (by simp [blankCell, hc])]

/-- C9: the analysis is deterministic and has no hidden state — its output
is a function of the table, the column and the observable behavior of the
injected parser capability: two capabilities with pointwise equal parse and
descriptor results yield identical reports, and in particular re-running on
the same inputs yields the identical report. -/
theorem analyze_deterministic {S : Type} (P Q : StructureParser S) (t : CompoundTable)
    (col : String) (hp : ∀ s, P.parse s = Q.parse s)
    (h1 : ∀ m, P.molWt m = Q.molWt m) (h2 : ∀ m, P.logP m = Q.logP m)
    (h3 : ∀ m, P.numHDonors m = Q.numHDonors m)
    (h4 : ∀ m, P.numHAcceptors m = Q.numHAcceptors m) :
    analyze_lipinski P t col = analyze_lipinski Q t col := by
  unfold analyze_lipinski
  have hrows : t.rows.map (analyzeRow P col) = t.rows.map (analyzeRow Q col) :=
    List.map_congr_left fun r _ => analyzeRow_parser_congr P Q col r hp h1 h2 h3 h4
  rw [hrows]

/-- Witness for C9: running the analysis twice with the same stub capability
gives the identical report. -/
theorem analyze_deterministic_witness :
    analyze_lipinski unitParser tinyTable "SMILES"
      = analyze_lipinski unitParser tinyTable "SMILES" :=
  analyze_deterministic unitParser unitParser tinyTable "SMILES"
    (fun _ => rfl) (fun _ => rfl) (fun _ => rfl) (fun _ => rfl) (fun _ => rfl)

/-- C10 (implicit): whenever detection succeeds the returned string is one
of the input column names, and the result depends only on the sequence of
column names — two tables with the same column names detect identically, so
cell contents are never inspected. -/
theorem detect_membership_names_only (t u : CompoundTable) (c : String) :
    (detectColumn t = Except.ok c → c ∈ t.cols) ∧
    (t.cols = u.cols → detectColumn t = detectColumn u) := by
  constructor
  · intro h
    unfold detectColumn detect_smiles_column at h
    cases h1 : t.cols.find? exactMatch with
    | some c0 =>
      rw [h1] at h
      exact (Except.ok.inj h) ▸ List.mem_of_find?_eq_some h1
    | none =>
      rw [h1] at h
      cases h2 : t.cols.find? substrMatch with
      | some c0 =>
        rw [h2] at h
        exact (Except.ok.inj h) ▸ List.mem_of_find?_eq_some h2
      | none =>
        rw [h2] at h
        exact absurd h (by simp)
  · intro h
    unfold detectColumn
    rw [h]

/-- Witness for C10: on the one-row table the detected column is a column of
the table, and the row-less table with the same columns detects the same. -/
theorem detect_membership_names_only_witness :
    "SMILES" ∈ tinyTable.cols ∧ detectColumn tinyTable = detectColumn emptyTable := by
  have h := detect_membership_names_only tinyTable emptyTable "SMILES"
  exact ⟨h.1 rfl, h.2 rfl⟩

end DrugLike
